import Mathlib

/-!
Verification development for the `seal` runtime data-validation engine.

The TypeScript sources are translated into Lean as follows:

* JavaScript runtime values are the inductive `JSValue`.  Finite numbers are
  rationals (every JavaScript float is an exact rational), `JSValue.nan`
  stands for the non-finite numbers, and `JSValue.date` carries a millisecond
  timestamp together with a validity flag (an invalid `Date` holds `NaN`).
  Composite values (`arr`, `obj`, `date`) are compared by reference in
  JavaScript; the model treats two composite literals as distinct references.
* A validation call that completes normally yields `some errors`
  (`CoreSchema.__$validate` returns a list of strings); a call that aborts
  with a thrown runtime exception is modelled as `none`.
* Rules (`__$rules` entries) are closures in the source.  Each closure the
  library ever constructs is one constructor of `PrimRule`, `ArrRule` or
  `DateRule`; `Rule.apply` reproduces the closure body, returning `none`
  exactly where the JavaScript body would throw (for example calling
  `v.trim()` on a value that is not a string).
-/

/-- Model of the JavaScript values a schema can be asked to validate. -/
inductive JSValue where
  | undefined
  | null
  | bool (b : Bool)
  | num (q : Rat)
  | nan
  | str (s : String)
  | arr (elems : List JSValue)
  | obj (fields : List (String × JSValue))
  | date (t : Int) (valid : Bool)

/-- The JavaScript `typeof` operator on modelled values. -/
def jsTypeof : JSValue → String
  | .undefined => "undefined"
  | .null => "object"
  | .bool _ => "boolean"
  | .num _ => "number"
  | .nan => "number"
  | .str _ => "string"
  | .arr _ => "object"
  | .obj _ => "object"
  | .date _ _ => "object"

/-- Left-pad a string with zeros to the given length. -/
def padZeros (s : String) (k : Nat) : String :=
  String.mk (List.replicate (k - s.length) '0') ++ s

/-- Decimal rendering of a rational, matching how JavaScript prints a float
whose exact value it is (finite decimal, no trailing zeros).  Rationals that
are not finite decimals cannot arise from JavaScript floats; they render as a
fraction. -/
def ratToString (q : Rat) : String :=
  if q.den = 1 then toString q.num
  else
    let sign := if q.num < 0 then "-" else ""
    let n := q.num.natAbs
    let k := q.den
    if (10 ^ k) % q.den = 0 then
      let scaled := n * ((10 ^ k) / q.den)
      let ip := scaled / 10 ^ k
      let fp := scaled % 10 ^ k
      let fpStr := (padZeros (toString fp) k).dropRightWhile (· == '0')
      sign ++ toString ip ++ "." ++ fpStr
    else
      sign ++ toString n ++ "/" ++ toString q.den

/-- Civil date from days since the Unix epoch (standard era-based algorithm);
used to model `Date.prototype.toISOString`. -/
def civilFromDays (z0 : Int) : Int × Int × Int :=
  let z := z0 + 719468
  let era := (if 0 ≤ z then z else z - 146096) / 146097
  let doe := z - era * 146097
  let yoe := (doe - doe / 1460 + doe / 36524 - doe / 146096) / 365
  let y := yoe + era * 400
  let doy := doe - (365 * yoe + yoe / 4 - yoe / 100)
  let mp := (5 * doy + 2) / 153
  let d := doy - (153 * mp + 2) / 5 + 1
  let m := mp + (if mp < 10 then 3 else -9)
  (y + (if m ≤ 2 then 1 else 0), m, d)

/-- Model of `Date.prototype.toISOString` for a millisecond timestamp. -/
def isoOfTimestamp (t : Int) : String :=
  let days := Int.ediv t 86400000
  let ms := Int.emod t 86400000
  let ymd := civilFromDays days
  let hh := Int.ediv ms 3600000
  let mm := Int.emod (Int.ediv ms 60000) 60
  let ss := Int.emod (Int.ediv ms 1000) 60
  let mmm := Int.emod ms 1000
  padZeros (toString ymd.1) 4 ++ "-" ++ padZeros (toString ymd.2.1) 2 ++ "-" ++
    padZeros (toString ymd.2.2) 2 ++ "T" ++ padZeros (toString hh) 2 ++ ":" ++
    padZeros (toString mm) 2 ++ ":" ++ padZeros (toString ss) 2 ++ "." ++
    padZeros (toString mmm) 3 ++ "Z"

mutual

/-- JavaScript string coercion of a modelled value (template-literal
interpolation `${v}`).  Dates render in ISO form in this model; the host
format differs but no schema message in the claims observes it. -/
def jsToString : JSValue → String
  | .undefined => "undefined"
  | .null => "null"
  | .bool b => if b then "true" else "false"
  | .num q => ratToString q
  | .nan => "NaN"
  | .str s => s
  | .arr l => String.intercalate "," (jsToStringElems l)
  | .obj _ => "[object Object]"
  | .date t valid => if valid then isoOfTimestamp t else "Invalid Date"

/-- Element rendering inside `Array.prototype.toString`: `null` and
`undefined` become empty strings. -/
def jsToStringElems : List JSValue → List String
  | [] => []
  | .undefined :: r => "" :: jsToStringElems r
  | .null :: r => "" :: jsToStringElems r
  | v :: r => jsToString v :: jsToStringElems r

end

/-- SameValueZero equality, as used by `Set` membership and
`Array.prototype.includes`.  Composite values compare by reference; the model
treats distinct composite literals as distinct references. -/
def jsSameValueZero : JSValue → JSValue → Bool
  | .undefined, .undefined => true
  | .null, .null => true
  | .bool a, .bool b => a == b
  | .num a, .num b => a == b
  | .nan, .nan => true
  | .str a, .str b => a == b
  | _, _ => false

/-- Size of `new Set(l)`: the number of SameValueZero-distinct elements. -/
def jsSetSize (l : List JSValue) : Nat :=
  (l.foldl (fun seen v => if seen.any (jsSameValueZero v) then seen else v :: seen) []).length

/-- Rules a primitive schema chain can contain.  Each constructor is one of
the closures pushed by `StringSchema`, `NumberSchema`, `BooleanSchema` or
`BasePrimitive` (`valid` / `invalid`); the constructor arguments are the
values the closure captures. -/
inductive PrimRule where
  | boolType
  | strType
  | strNonEmpty (canBeEmpty : Bool)
  | strMin (n : Nat)
  | strMax (n : Nat)
  | numType
  | numInteger
  | numFloat
  | numGte (n : Rat)
  | numLte (n : Rat)
  | numGt (n : Rat)
  | numLt (n : Rat)
  | primValid (vs : List JSValue)
  | primInvalid (vs : List JSValue)

/-- Whether a modelled value is a finite number and `Number.isInteger` holds. -/
def jsIsInteger : JSValue → Bool
  | .num q => q.den == 1
  | _ => false

/-- Evaluate one primitive rule on a value, mirroring the closure body.
`none` marks the places where the JavaScript body throws (method calls on
values of the wrong type); every such branch sits behind the type-check rule
the schema constructor installs first, so it is unreachable through the
library builders.  For the same reason the numeric comparison rules elide the
ToNumber coercion JavaScript would apply to non-number operands. -/
def PrimRule.apply : PrimRule → JSValue → Option (Bool × String)
  | .boolType, v =>
      some ((match v with | .bool _ => true | _ => false),
        jsTypeof v ++ " is not a boolean")
  | .strType, v =>
      some ((match v with | .str _ => true | _ => false),
        "type " ++ jsTypeof v ++ " is not a string")
  | .strNonEmpty canBeEmpty, v =>
      -- `this.canBeEmpty ? true : v.trim().length !== 0`
      if canBeEmpty then some (true, "empty strings are not allowed")
      else match v with
        | .str s => some (decide (s.trim.length ≠ 0), "empty strings are not allowed")
        | _ => none
  | .strMin n, v =>
      -- `v.length >= n`; `.length` of null or undefined throws
      (match v with
        | .str s => some (decide (s.length ≥ n))
        | .arr l => some (decide (l.length ≥ n))
        | .undefined => none
        | .null => none
        | _ => some false).map
        (fun b => (b, "should be longer than " ++ toString ((n : Int) - 1) ++ " symbols"))
  | .strMax n, v =>
      (match v with
        | .str s => some (decide (s.length ≤ n))
        | .arr l => some (decide (l.length ≤ n))
        | .undefined => none
        | .null => none
        | _ => some false).map
        (fun b => (b, "should be shorter than " ++ toString (n + 1) ++ " symbols"))
  | .numType, v =>
      -- `typeof v === "number" && Number.isFinite(v)`
      some ((match v with | .num _ => true | _ => false),
        jsToString v ++ " is not a valid integer number")
  | .numInteger, v => some (jsIsInteger v, "shall be an integer")
  | .numFloat, v => some (!jsIsInteger v, "shall not be an integer")
  | .numGte n, v =>
      some ((match v with | .num q => decide (q ≥ n) | _ => false),
        "shall be greater than or equal to " ++ ratToString n)
  | .numLte n, v =>
      some ((match v with | .num q => decide (q ≤ n) | _ => false),
        "shall be less than or equal to " ++ ratToString n)
  | .numGt n, v =>
      some ((match v with | .num q => decide (q > n) | _ => false),
        "shall be greater than " ++ ratToString n)
  | .numLt n, v =>
      some ((match v with | .num q => decide (q < n) | _ => false),
        "shall be less than " ++ ratToString n)
  | .primValid vs, v =>
      some (vs.any (jsSameValueZero v), jsToString v ++ " is not allowed")
  | .primInvalid vs, v =>
      some (!vs.any (jsSameValueZero v), jsToString v ++ " is not allowed")

/-- Rules an `ArraySchema` chain can contain (`min`, `max`, `unique`,
`valid`, `invalid`; `length` is `min` followed by `max`). -/
inductive ArrRule where
  | minR (n : Nat)
  | maxR (n : Nat)
  | uniqueR
  | validR (vs : List JSValue)
  | invalidR (vs : List JSValue)

/-- Evaluate one array chain rule.  These rules are only reached after the
`Array.isArray` guard in `ArraySchema.__$validate`, so only the `.arr` branch
is ever exercised; `.length` access on null or undefined would throw. -/
def ArrRule.apply : ArrRule → JSValue → Option (Bool × String)
  | .minR n, v =>
      (match v with
        | .arr l => some (decide (l.length ≥ n))
        | .undefined => none
        | .null => none
        | _ => some false).map
        (fun b => (b, "shall contain at least " ++ toString n ++ " items"))
  | .maxR n, v =>
      (match v with
        | .arr l => some (decide (l.length ≤ n))
        | .undefined => none
        | .null => none
        | _ => some false).map
        (fun b => (b, "shall contain less than " ++ toString (n + 1) ++ " items"))
  | .uniqueR, v =>
      (match v with
        | .arr l => some (jsSetSize l == l.length)
        | .undefined => none
        | .null => none
        | _ => some false).map
        (fun b => (b, "shall contain only unique items"))
  | .validR vs, v =>
      (match v with
        | .arr l => some (l.all (fun i => vs.any (jsSameValueZero i)))
        | .undefined => none
        | .null => none
        | _ => some false).map
        (fun b => (b, "some of provided values are not allowed"))
  | .invalidR vs, v =>
      (match v with
        | .arr l => some (!l.any (fun i => vs.any (jsSameValueZero i)))
        | .undefined => none
        | .null => none
        | _ => some false).map
        (fun b => (b, "some of provided values are not allowed"))

/-- Rules a `DateSchema` chain can contain: the instance rule installed by
the constructor, the RFC 3339 rule added by `.date`, and the bound rules
added by `.min` / `.max`. -/
inductive DateRule where
  | instanceR
  | iso24R
  | gteR (t : Int)
  | lteR (t : Int)

/-- Evaluate one date chain rule.  `DateSchema.__$validate` only reaches the
chain with a freshly parsed valid `Date`, so the throwing branches
(`toISOString` on a non-date or invalid date) are unreachable there. -/
def DateRule.apply : DateRule → JSValue → Option (Bool × String)
  | .instanceR, v =>
      -- `v instanceof Date && !isNaN(+v)`
      some ((match v with | .date _ valid => valid | _ => false),
        jsTypeof v ++ " is not a valid date")
  | .iso24R, v =>
      -- `v.toISOString().length === 24`
      ((match v with
        | .date t true => some (t, (isoOfTimestamp t).length == 24)
        | _ => none) : Option (Int × Bool)).map
        (fun p => (p.2, jsToString (.date p.1 true) ++ " is not a valid RFC 3339 date"))
  | .gteR t, v =>
      some ((match v with | .date u true => decide (u ≥ t) | _ => false),
        "shall be greater than or equal to " ++ isoOfTimestamp t)
  | .lteR t, v =>
      some ((match v with | .date u true => decide (u ≤ t) | _ => false),
        "shall be less than or equal to " ++ isoOfTimestamp t)

/-- The rule-chain engine: `CoreSchema.__$validate`.  Iterates rules in
insertion order, stopping at the first rule whose predicate is false and
returning that single message; `none` propagates a thrown exception from a
rule body. -/
def runRules {ρ : Type} (apply : ρ → JSValue → Option (Bool × String)) :
    List ρ → JSValue → Option (List String)
  | [], _ => some []
  | r :: rs, x =>
    match apply r x with
    | none => none
    | some (true, _) => runRules apply rs x
    | some (false, m) => some [m]

/-- Days since the Unix epoch for a civil date (era-based algorithm). -/
def daysFromCivil (y0 m d : Int) : Int :=
  let y := if m ≤ 2 then y0 - 1 else y0
  let era := (if 0 ≤ y then y else y - 399) / 400
  let yoe := y - era * 400
  let mp := Int.emod (m + 9) 12
  let doy := (153 * mp + 2) / 5 + d - 1
  let doe := yoe * 365 + yoe / 4 - yoe / 100 + doy
  era * 146097 + doe - 719468

/-- Split a character list on a separator character. -/
def splitOnChar (sep : Char) : List Char → List (List Char)
  | [] => [[]]
  | c :: rest =>
    let r := splitOnChar sep rest
    if c == sep then [] :: r
    else
      match r with
      | g :: gs => (c :: g) :: gs
      | [] => [[c]]

/-- Numeric value of a digit string. -/
def digitsToNat (l : List Char) : Nat :=
  l.foldl (fun acc c => acc * 10 + (c.toNat - 48)) 0

/-- Models the host JavaScript date parser (`new Date(string)`), restricted
to ISO `YYYY-MM-DD` date-only strings; every other string is treated as
unparsable.  The result is a millisecond Unix timestamp. -/
def parseDate (s : String) : Option Int :=
  match splitOnChar '-' s.toList with
  | [y, m, d] =>
    if y.length == 4 && m.length == 2 && d.length == 2
        && y.all Char.isDigit && m.all Char.isDigit && d.all Char.isDigit then
      let yn : Int := digitsToNat y
      let mn : Int := digitsToNat m
      let dn : Int := digitsToNat d
      if 1 ≤ mn && mn ≤ 12 && 1 ≤ dn && dn ≤ 31 then
        some (daysFromCivil yn mn dn * 86400000)
      else none
    else none
  | _ => none

/-- Model of the `toDate` helper in `date-schema.ts`: a `Date` argument is
returned when its timestamp is not `NaN`, a string argument is parsed, and
`null` (here `none`) results when the value does not denote a valid date. -/
def toDateModel : JSValue → Option Int
  | .date t valid => if valid then some t else none
  | .str s => parseDate s
  | _ => none

/-- Tail of `DateSchema.__$validate` once a string input has parsed to a
valid date: the `maxDate` field check, then delegation to the rule chain. -/
def dateMaxAndRules (maxDate : Option Int) (rules : List DateRule) (t : Int) :
    Option (List String) :=
  match maxDate with
  | some m =>
    if m < t then some ["shall be less than or equal to " ++ isoOfTimestamp m]
    else runRules DateRule.apply rules (.date t true)
  | none => runRules DateRule.apply rules (.date t true)

/-- `DateSchema.__$validate`: only string inputs are parsed into `_input`;
any other input (a genuine `Date` instance included) leaves `_input` as
`null`, so the instance guard fails with `NaN is not a valid date`.  After
the `minDate` and `maxDate` field checks, the rule chain runs on the parsed
date. -/
def dateValidate (minDate maxDate : Option Int) (rules : List DateRule)
    (input : JSValue) : Option (List String) :=
  match input with
  | .str s =>
    match parseDate s with
    | none => some [s ++ " is not a valid date"]
    | some t =>
      match minDate with
      | some m =>
        if t < m then some ["shall be greater than or equal to " ++ isoOfTimestamp m]
        else dateMaxAndRules maxDate rules t
      | none => dateMaxAndRules maxDate rules t
  | _ => some ["NaN is not a valid date"]

/-- Schema values, one constructor per concrete schema class of the library.
`prim` covers `BooleanSchema`, `StringSchema`, `NumberSchema` and
`BasePrimitive` instances, whose `__$validate` is `CoreSchema.__$validate`
over the rule list.  `arrS` mirrors the `ArraySchema` fields
(`elementSchema`, `tupleSchemas`, `allowDuplicates`, `whitelist`,
`blacklist`, rules); `objS` mirrors `ObjectSchema` (`__$shape`, `__$loose`);
`dateS` mirrors `DateSchema` (`minDate`, `maxDate`, rules); `optS` and
`nullS` are the `OptionalSchema` and `NullableSchema` wrappers. -/
inductive Schema where
  | prim (rules : List PrimRule)
  | dateS (minDate maxDate : Option Int) (rules : List DateRule)
  | objS (shape : List (String × Schema)) (loose : Bool)
  | arrS (elementSchema : Option Schema) (tupleSchemas : Option (List Schema))
      (allowDuplicates : Bool) (whitelist blacklist : Option (List JSValue))
      (rules : List ArrRule)
  | oneOfS (subs : List Schema)
  | anyOfS (subs : List Schema)
  | allOfS (subs : List Schema)
  | notS (base excluded : Schema)
  | optS (inner : Schema)
  | nullS (inner : Schema)

/-- The `instanceof OptionalSchema` test used by the object validator. -/
def isOptionalSchema : Schema → Bool
  | .optS _ => true
  | _ => false

/-- The JavaScript `key in input` test on an object value. -/
def keyIn (key : String) (fields : List (String × JSValue)) : Bool :=
  fields.any (fun p => p.1 == key)

/-- Property access `input[key]`; `undefined` when the key is absent. -/
def getField (key : String) (fields : List (String × JSValue)) : JSValue :=
  (((fields.find? (fun p => p.1 == key)).map Prod.snd)).getD .undefined

/-- `Object.keys(input)` after the object validator type guard.  Only
`null`, plain objects and other non-array objects (such as dates, which have
no own enumerable keys) can reach this point; `Object.keys(null)` throws a
TypeError, modelled as `none`. -/
def objFieldsOf : JSValue → Option (List (String × JSValue))
  | .null => none
  | .obj fields => some fields
  | _ => some []

/-- The supplementary checks of `ArraySchema.__$validate` that follow the
element loop: the `allowDuplicates` field check, the whitelist and blacklist
field checks, then delegation to the rule chain. -/
def arrChecks (allowDuplicates : Bool) (whitelist blacklist : Option (List JSValue))
    (rules : List ArrRule) (l : List JSValue) : Option (List String) :=
  if !allowDuplicates && jsSetSize l != l.length then
    some ["duplicates not allowed"]
  else if (match whitelist with
    | some w => !(l.all (fun i => w.any (jsSameValueZero i)))
    | none => false) then
    some ["some of provided values are not allowed"]
  else if (match blacklist with
    | some b => l.any (fun i => b.any (jsSameValueZero i))
    | none => false) then
    some ["some of provided values are not allowed"]
  else runRules ArrRule.apply rules (.arr l)

mutual

/-- `__$validate` for every schema kind.  A `some` result is the returned
error list; `none` is a thrown runtime exception. -/
def validate : Schema → JSValue → Option (List String)
  | .prim rules, x => runRules PrimRule.apply rules x
  | .dateS minDate maxDate rules, x => dateValidate minDate maxDate rules x
  | .objS shape loose, x =>
    -- `if (typeof input !== "object" || Array.isArray(input)) return ["not an object"]`
    if jsTypeof x != "object" || (match x with | .arr _ => true | _ => false) then
      some ["not an object"]
    else
      match objFieldsOf x with
      | none => none
      | some fields =>
        match objScan (shape.map Prod.fst) (fields.map Prod.fst) fields shape false with
        | none => none
        | some (some errs, _) => some errs
        | some (none, hasUnknownKeys) =>
          if hasUnknownKeys && !loose then some ["unknown keys not allowed"]
          else some []
  | .arrS elementSchema tupleSchemas allowDuplicates whitelist blacklist rules, x =>
    match x with
    | .arr l =>
      (match tupleSchemas with
        | some tss =>
          if l.length != tss.length then some ["invalid array length"]
          else
            match validateTuple tss l with
            | none => none
            | some msgs =>
              if msgs.isEmpty then arrChecks allowDuplicates whitelist blacklist rules l
              else some msgs
        | none =>
          match elementSchema with
          | some s =>
            match validateElems s l with
            | none => none
            | some msgs =>
              if msgs.isEmpty then arrChecks allowDuplicates whitelist blacklist rules l
              else some msgs
          | none => arrChecks allowDuplicates whitelist blacklist rules l)
    | _ => some [jsTypeof x ++ " is not an array"]
  | .oneOfS subs, x =>
    match validateList subs x with
    | none => none
    | some outs =>
      let matchCount := (outs.filter (fun m => m.isEmpty)).length
      if matchCount == 1 then some []
      else some ((if matchCount < 1 then "none of the provided schemas is valid"
                  else "more than one schema is valid") :: outs.flatten)
  | .anyOfS subs, x =>
    match validateList subs x with
    | none => none
    | some outs =>
      if outs.any (fun m => m.isEmpty) then some []
      else some ("all schemas are invalid" :: outs.flatten)
  | .allOfS subs, x =>
    match validateList subs x with
    | none => none
    | some outs =>
      if outs.all (fun m => m.isEmpty) then some []
      else some ("some of the provided schemas are invalid" :: outs.flatten)
  | .notS base excluded, x =>
    match validate base x with
    | none => none
    | some baseMsgs =>
      match validate excluded x with
      | none => none
      | some notMsgs =>
        if baseMsgs.isEmpty && !notMsgs.isEmpty then some []
        else
          some ((if !baseMsgs.isEmpty then "base schema is invalid"
                 else "value must not match the excluded schema")
            :: (if baseMsgs.isEmpty then notMsgs else baseMsgs))
  | .optS inner, x =>
    match x with
    | .undefined => some []
    | _ => validate inner x
  | .nullS inner, x =>
    match x with
    | .null => some []
    | _ => validate inner x
termination_by s _ => (sizeOf s, 0)

/-- The per-key loop of `ObjectSchema.__$validate`, one iteration per shape
entry in declaration order.  The result pairs an early-return value (`some`
when the loop returned) with the accumulated `hasUnknownKeys` flag.  Note
the unknown-key test reproduces the source exactly: it asks whether the
current shape key is missing from `shapeKeys` while iterating `shapeKeys`. -/
def objScan (shapeKeys inputKeys : List String) (fields : List (String × JSValue)) :
    List (String × Schema) → Bool → Option (Option (List String) × Bool)
  | [], acc => some (none, acc)
  | (key, s) :: rest, acc =>
    if !(keyIn key fields) && !(isOptionalSchema s) then
      some (some ["key \"" ++ key ++ "\" not found"], acc)
    else
      let acc2 := acc || (!(shapeKeys.contains key) && inputKeys.contains key)
      if keyIn key fields then
        match validate s (getField key fields) with
        | none => none
        | some errs =>
          let keyErrors := errs.map (fun msg => "key \"" ++ key ++ "\" " ++ msg)
          if keyErrors.length > 0 then some (some keyErrors, acc2)
          else objScan shapeKeys inputKeys fields rest acc2
      else objScan shapeKeys inputKeys fields rest acc2
termination_by rest _ => (sizeOf rest, 0)

/-- The homogeneous element loop of `ArraySchema.__$validate`: first failing
element stops the loop; `some []` means every element passed. -/
def validateElems (s : Schema) : List JSValue → Option (List String)
  | [] => some []
  | v :: vs =>
    match validate s v with
    | none => none
    | some msgs => if msgs.isEmpty then validateElems s vs else some msgs
termination_by l => (sizeOf s, sizeOf l)

/-- The positional tuple loop of `ArraySchema.__$validate` (lengths already
checked equal). -/
def validateTuple : List Schema → List JSValue → Option (List String)
  | s :: ss, v :: vs =>
    match validate s v with
    | none => none
    | some msgs => if msgs.isEmpty then validateTuple ss vs else some msgs
  | _, _ => some []
termination_by ss _ => (sizeOf ss, 0)

/-- `subs.map(s => s.__$validate(x))` for the combinators: every sub-schema
is evaluated, left to right, and an exception in any of them propagates. -/
def validateList : List Schema → JSValue → Option (List (List String))
  | [], _ => some []
  | s :: ss, x =>
    match validate s x, validateList ss x with
    | some r, some rs => some (r :: rs)
    | _, _ => none
termination_by ss _ => (sizeOf ss, 0)

end

/-- Values stored in a metadata descriptor (`SealDescriptor`). -/
inductive MetaValue where
  | mStr (s : String)
  | mBool (b : Bool)
  | mNum (q : Rat)
  | mList (l : List MetaValue)
  | mDesc (d : List (String × MetaValue))

/-- A metadata descriptor: ordered string-keyed map, as a JavaScript object
literal. -/
abbrev Descriptor := List (String × MetaValue)

/-- Overwrite-or-append one key, preserving JavaScript object key order. -/
def setKey (d : Descriptor) (k : String) (v : MetaValue) : Descriptor :=
  if d.any (fun p => p.1 == k) then
    d.map (fun p => if p.1 == k then (k, v) else p)
  else d ++ [(k, v)]

/-- Shallow merge `{ ...d, ...fragment }` with fragment keys overwriting. -/
def mergeDesc (d fragment : Descriptor) : Descriptor :=
  fragment.foldl (fun acc p => setKey acc p.1 p.2) d

/-- Key lookup in a descriptor. -/
def lookupDesc (k : String) (d : Descriptor) : Option MetaValue :=
  (d.find? (fun p => p.1 == k)).map Prod.snd

/-- The `ValidationError` class of `validation-error.ts`: an error value
carrying a name, a message and an HTTP status code. -/
structure ValidationError where
  name : String
  message : String
  code : Nat

/-- The `ValidationError` constructor: sets the name to distinguish the
error and uses HTTP 400 Bad Request as the code. -/
def mkValidationError (message : String) : ValidationError :=
  { name := "ValidationError", message := message, code := 400 }

/-- Builder state of a `DateSchema` instance: the `minDate` / `maxDate`
fields, the rule chain and the metadata descriptor. -/
structure DateSchemaState where
  minDate : Option Int
  maxDate : Option Int
  rules : List DateRule
  desc : Descriptor

/-- `new DateSchema()`: seeds the instance rule and then merges
`format: date-time` metadata. -/
def dateSchemaNew : DateSchemaState :=
  { minDate := none, maxDate := none, rules := [.instanceR],
    desc := mergeDesc [("type", .mStr "string")] [("format", .mStr "date-time")] }

/-- `DateSchema.min`: parse the bound with `toDate`, throw a
`ValidationError` when unparsable, otherwise record the field, the metadata
and the chain rule.  The `Except` return models the synchronous throw
propagating to the caller of the chain call. -/
def DateSchemaState.min (st : DateSchemaState) (d : JSValue) :
    Except ValidationError DateSchemaState :=
  match toDateModel d with
  | none => .error (mkValidationError "Invalid min date")
  | some t => .ok ({ st with
      minDate := some t,
      desc := mergeDesc st.desc [("minimum", .mStr (isoOfTimestamp t))],
      rules := st.rules ++ [.gteR t] })

/-- `DateSchema.max`, symmetric to `min`. -/
def DateSchemaState.max (st : DateSchemaState) (d : JSValue) :
    Except ValidationError DateSchemaState :=
  match toDateModel d with
  | none => .error (mkValidationError "Invalid max date")
  | some t => .ok ({ st with
      maxDate := some t,
      desc := mergeDesc st.desc [("maximum", .mStr (isoOfTimestamp t))],
      rules := st.rules ++ [.lteR t] })

/-- State of one `CoreSchema` instance: type tag, rule chain and
descriptor.  The rule representation is a type parameter; primitive schemas
instantiate it with `PrimRule`. -/
structure CoreSt (ρ : Type) where
  type : String
  rules : List ρ
  desc : Descriptor

/-- The `CoreSchema` constructor: rules from `initialRules`, descriptor
`{ type, ...descriptor }`. -/
def coreInit {ρ : Type} (type : String) (initialRules : List ρ)
    (descriptor : Descriptor) : CoreSt ρ :=
  { type := type, rules := initialRules,
    desc := mergeDesc [("type", .mStr type)] descriptor }

/-- `$metadata`: reassign the descriptor field to a fresh shallow merge. -/
def coreMetadata {ρ : Type} (data : Descriptor) (s : CoreSt ρ) : CoreSt ρ :=
  { s with desc := mergeDesc s.desc data }

/-- `$add`: push a rule onto the chain. -/
def coreAdd {ρ : Type} (r : ρ) (s : CoreSt ρ) : CoreSt ρ :=
  { s with rules := s.rules ++ [r] }

/-- A wrapper (`OptionalSchema` or `NullableSchema`) together with the live
state of the inner schema it aliases.  The wrapper keeps the inner schema by
reference, so later mutations of the inner schema are visible through
`innerNow`; `wrapperSt` is the wrapper object itself, whose descriptor was
computed once in its constructor. -/
structure WrapWorld (ρ : Type) where
  innerNow : CoreSt ρ
  wrapperSt : CoreSt ρ

/-- `new OptionalSchema(inner)`:
`super(inner.type, [], { ...inner.descriptor, optional: true })`. -/
def mkOptionalWorld {ρ : Type} (inner : CoreSt ρ) : WrapWorld ρ :=
  { innerNow := inner,
    wrapperSt := coreInit inner.type []
      (mergeDesc inner.desc [("optional", .mBool true)]) }

/-- `new NullableSchema(inner)`:
`super(inner.type, [], { ...inner.descriptor, nullable: true })`. -/
def mkNullableWorld {ρ : Type} (inner : CoreSt ρ) : WrapWorld ρ :=
  { innerNow := inner,
    wrapperSt := coreInit inner.type []
      (mergeDesc inner.desc [("nullable", .mBool true)]) }

/-- Mutating the aliased inner schema with `$metadata` after wrapping. -/
def innerMetadata {ρ : Type} (data : Descriptor) (w : WrapWorld ρ) : WrapWorld ρ :=
  { w with innerNow := coreMetadata data w.innerNow }

/-- Mutating the aliased inner schema with `$add` after wrapping. -/
def innerAddRule {ρ : Type} (r : ρ) (w : WrapWorld ρ) : WrapWorld ρ :=
  { w with innerNow := coreAdd r w.innerNow }

/-- `OptionalSchema.__$validate`: `undefined` short-circuits to valid,
anything else delegates to the live inner schema
(`this.inner.__$validate(input)`). -/
def optionalValidate {ρ : Type} (apply : ρ → JSValue → Option (Bool × String))
    (w : WrapWorld ρ) (x : JSValue) : Option (List String) :=
  match x with
  | .undefined => some []
  | _ => runRules apply w.innerNow.rules x

/-- `NullableSchema.__$validate`: `null` short-circuits to valid, anything
else delegates to the live inner schema. -/
def nullableValidate {ρ : Type} (apply : ρ → JSValue → Option (Bool × String))
    (w : WrapWorld ρ) (x : JSValue) : Option (List String) :=
  match x with
  | .null => some []
  | _ => runRules apply w.innerNow.rules x

/-- `__$exportMetadata` of a wrapper: its own descriptor (the wrappers do
not override the export). -/
def wrapperExport {ρ : Type} (w : WrapWorld ρ) : Descriptor :=
  w.wrapperSt.desc

/-- Builder state of an `ObjectSchema` instance.  The shape object is shared
by reference between instances; its type is a parameter and sharing is plain
equality of the field. -/
structure ObjectSt (σ : Type) where
  shape : σ
  loose : Bool
  desc : Descriptor

/-- `new ObjectSchema(shape)`: `super("object")` gives the descriptor
`{ type: "object" }`; the loose flag defaults to false. -/
def objectNew {σ : Type} (shape : σ) : ObjectSt σ :=
  { shape := shape, loose := false, desc := [("type", .mStr "object")] }

/-- `$metadata` on an object schema (used by `name` and `externalDocs`). -/
def objectMetadata {σ : Type} (data : Descriptor) (s : ObjectSt σ) : ObjectSt σ :=
  { s with desc := mergeDesc s.desc data }

/-- The `loose` accessor: allocates `new ObjectSchema(this.__$shape)` and
sets the fresh instance's `__$loose` flag; the receiver is not assigned to.
The first component is the returned schema, the second the receiver state
after the call. -/
def objectLoose {σ : Type} (s : ObjectSt σ) : ObjectSt σ × ObjectSt σ :=
  ({ objectNew s.shape with loose := true }, s)

/-- `ObjectSchema.__$exportMetadata`:
`{ ...descriptor, shape: childExports }`.  The nested children export is a
function of the shared shape alone, passed as a parameter. -/
def objectExport {σ : Type} (exportShape : σ → MetaValue) (s : ObjectSt σ) :
    Descriptor :=
  mergeDesc s.desc [("shape", exportShape s.shape)]

/-- `seal.number`: a fresh `NumberSchema` has only the finite-number rule. -/
def numberSchema : Schema := .prim [.numType]

/-- `seal.string`: a fresh `StringSchema` has the type rule and the
non-empty rule (with `canBeEmpty` false). -/
def stringSchema : Schema := .prim [.strType, .strNonEmpty false]

/-- `seal.number.integer`. -/
def integerSchema : Schema := .prim [.numType, .numInteger]

/-- `new NumberSchema()` as a `CoreSchema` state: type tag "number", the
finite-number rule, descriptor `{ type: "number" }`. -/
def numberCoreSt : CoreSt PrimRule := coreInit "number" [.numType] []

/-- One shape entry poses no obstacle to the object scan: an absent key is
wrapped in `OptionalSchema`, and a present key validates to the empty list. -/
def scanPass (fields : List (String × JSValue)) (p : String × Schema) : Prop :=
  (keyIn p.1 fields = false → isOptionalSchema p.2 = true)
  ∧ (keyIn p.1 fields = true → validate p.2 (getField p.1 fields) = some [])

/-- Claim C4: the rule-chain engine (`CoreSchema.__$validate`) applied to any
chain of rules that never throw returns the message of the first failing rule
as a singleton — later rules are never consulted — and the empty list when
every rule passes, so the result always has length 0 or 1; concretely,
`number.integer.gte(0).lte(100)` on `2.5` yields exactly
`["shall be an integer"]`. -/
theorem ruleChain_first_failure_c4 :
    (∀ {ρ : Type} (pass : ρ → JSValue → Bool) (msg : ρ → JSValue → String)
      (rules : List ρ) (x : JSValue),
      runRules (fun r v => some (pass r v, msg r v)) rules x
        = some (((rules.find? (fun r => !(pass r x))).map (fun r => msg r x)).toList))
    ∧ (∀ {ρ : Type} (apply : ρ → JSValue → Option (Bool × String))
        (rules : List ρ) (x : JSValue) (out : List String),
        runRules apply rules x = some out → out.length ≤ 1)
    ∧ validate (.prim [.numType, .numInteger, .numGte 0, .numLte 100])
        (.num (mkRat 5 2)) = some ["shall be an integer"] := by
  refine ⟨?_, ?_, ?_⟩
  · intro ρ pass msg rules x
    induction rules with
    | nil => rfl
    | cons r rs ih =>
      by_cases h : pass r x
      · simpa [runRules, List.find?, h] using ih
      · simp [runRules, List.find?, h]
  · intro ρ apply rules x out h
    induction rules generalizing out with
    | nil =>
      simp [runRules] at h
      subst h
      simp
    | cons r rs ih =>
      simp only [runRules] at h
      cases ha : apply r x with
      | none => rw [ha] at h; exact absurd h (by simp)
      | some p =>
        obtain ⟨b, m⟩ := p
        rw [ha] at h
        cases b
        · simp at h
          subst h
          simp
        · simp at h
          exact ih _ h
  · simp [validate]
    decide

/-- Witness for C4: the singleton-or-empty bound applied at the claim
example chain and input. -/
theorem ruleChain_first_failure_c4_witness :
    (["shall be an integer"] : List String).length ≤ 1 :=
  ruleChain_first_failure_c4.2.1 PrimRule.apply
    [.numType, .numInteger, .numGte 0, .numLte 100] (.num (mkRat 5 2))
    ["shall be an integer"] (by decide)

/-- Claim C1 (code bug): a strict object schema accepts an input carrying a
key outside the shape — the unknown-key test in `ObjectSchema.__$validate`
asks whether a shape key is missing from the shape key list while iterating
that same list, so the flag can never be set — and the loose variant accepts
the same input, as the claim states for that half. -/
theorem object_unknown_keys_accepted_c1 :
    validate (.objS [("id", numberSchema)] false)
        (.obj [("id", .num 1), ("extra", .num 2)]) = some []
    ∧ validate (.objS [("id", numberSchema)] true)
        (.obj [("id", .num 1), ("extra", .num 2)]) = some [] := by
  constructor <;>
    simp [validate, objScan, objFieldsOf, jsTypeof, keyIn, getField,
      isOptionalSchema, numberSchema, runRules, PrimRule.apply]

/-- Claim C2 (code bug): validation is not total — `null` passes the
`typeof input !== "object"` guard (in JavaScript `typeof null` is
`"object"`), after which `Object.keys(null)` throws a TypeError, modelled as
`none`; the evaluation call aborts abnormally instead of returning a list. -/
theorem object_validate_throws_on_null_c2 :
    validate (.objS [("id", numberSchema)] false) .null = none := by
  simp [validate, objFieldsOf, jsTypeof]

/-- The object scan returns the missing-key error for the first shape entry
whose key is absent and not `OptionalSchema`-wrapped, provided every earlier
entry passes its own step of the loop. -/
theorem objScan_missing_first (shapeKeys inputKeys : List String)
    (fields : List (String × JSValue)) (pre post : List (String × Schema))
    (k : String) (s : Schema) (acc : Bool)
    (hpre : ∀ p ∈ pre, scanPass fields p)
    (hk : keyIn k fields = false) (hs : isOptionalSchema s = false) :
    ∃ acc2, objScan shapeKeys inputKeys fields (pre ++ (k, s) :: post) acc
      = some (some ["key \"" ++ k ++ "\" not found"], acc2) := by
  induction pre generalizing acc with
  | nil => exact ⟨acc, by simp [objScan, hk, hs]⟩
  | cons p pre ih =>
    obtain ⟨pk, ps⟩ := p
    obtain ⟨h1, h2⟩ := hpre (pk, ps) (by simp)
    have hrest : ∀ q ∈ pre, scanPass fields q := fun q hq => hpre q (by simp [hq])
    by_cases hin : keyIn pk fields
    · have hv := h2 hin
      obtain ⟨acc2, ha⟩ :=
        ih (acc || (!(shapeKeys.contains pk) && inputKeys.contains pk)) hrest
      refine ⟨acc2, ?_⟩
      simp [objScan, hin, hv]
      simpa using ha
    · have ho := h1 (by simpa using hin)
      obtain ⟨acc2, ha⟩ :=
        ih (acc || (!(shapeKeys.contains pk) && inputKeys.contains pk)) hrest
      refine ⟨acc2, ?_⟩
      simp [objScan, hin, ho]
      simpa using ha

/-- Claim C3 amended: the required-key check and the per-key recursive
validation are interleaved in a single pass over the shape in declaration
order — there is no separate scan phase.  The result is exactly
`key "<k>" not found` for the first missing non-Optional key provided every
earlier shape entry is either present with a valid value or absent and
Optional; when an earlier present key is rejected by its child schema, that
child error is returned instead (see the counterexample). -/
theorem object_missing_key_scan_c3 (pre post : List (String × Schema))
    (k : String) (s : Schema) (fields : List (String × JSValue)) (loose : Bool)
    (hpre : ∀ p ∈ pre, scanPass fields p)
    (hk : keyIn k fields = false) (hs : isOptionalSchema s = false) :
    validate (.objS (pre ++ (k, s) :: post) loose) (.obj fields)
      = some ["key \"" ++ k ++ "\" not found"] := by
  obtain ⟨acc2, ha⟩ := objScan_missing_first ((pre ++ (k, s) :: post).map Prod.fst)
    (fields.map Prod.fst) fields pre post k s false hpre hk hs
  simp only [List.map_append, List.map_cons] at ha
  simp [validate, objFieldsOf, jsTypeof, ha]

/-- Witness for C3 at the example from the spec: shape `{id, name}` with
input `{id: 2}` yields exactly `key "name" not found`. -/
theorem object_missing_key_scan_c3_witness :
    validate (.objS [("id", integerSchema), ("name", stringSchema)] false)
        (.obj [("id", .num 2)]) = some ["key \"name\" not found"] := by
  have hpre : ∀ p ∈ [(("id" : String), integerSchema)],
      scanPass [(("id" : String), JSValue.num 2)] p := by
    intro p hp
    simp only [List.mem_singleton] at hp
    subst hp
    constructor
    · intro h
      exact absurd h (by decide)
    · intro _
      have : getField "id" [(("id" : String), JSValue.num 2)] = JSValue.num 2 := rfl
      rw [this]
      simp [validate, integerSchema]
      decide
  simpa using object_missing_key_scan_c3 [("id", integerSchema)] [] "name"
    stringSchema [("id", .num 2)] false hpre (by decide) (by decide)

/-- Counterexample for C3 as stated: with shape `{a: number.integer,
b: string}` and input `{a: 2.5}`, the non-Optional key `b` is missing, yet
the result is the prefixed child error of the earlier present key `a`, not
`key "b" not found` — the required-key scan does not run ahead of per-key
validation. -/
theorem object_missing_key_scan_c3_cx :
    validate (.objS [("a", integerSchema), ("b", stringSchema)] false)
        (.obj [("a", .num (mkRat 5 2))])
      = some ["key \"a\" shall be an integer"]
    ∧ ["key \"a\" shall be an integer"] ≠ ["key \"b\" not found"] := by
  constructor
  · have hv : validate integerSchema (.num (mkRat 5 2))
        = some ["shall be an integer"] := by
      simp [validate, integerSchema]
      decide
    have hg : getField "a" [(("a" : String), JSValue.num (mkRat 5 2))]
        = JSValue.num (mkRat 5 2) := rfl
    simp [validate, objScan, objFieldsOf, jsTypeof, keyIn, isOptionalSchema, hg, hv]
  · decide

/-- Claim C5: `OneOfSchema.__$validate` evaluates every sub-schema; the
result is empty iff exactly one sub-schema returned empty, otherwise it is
the zero-match or many-match header followed by all sub-schema error lists
concatenated in declaration order; concretely `oneOf(string, number)` on
`true` yields the three listed messages. -/
theorem oneOf_exclusive_c5 :
    (∀ (subs : List Schema) (x : JSValue) (outs : List (List String)),
      validateList subs x = some outs →
      ((validate (.oneOfS subs) x = some []
          ↔ (outs.filter (fun m => m.isEmpty)).length = 1)
        ∧ ((outs.filter (fun m => m.isEmpty)).length = 0 →
            validate (.oneOfS subs) x
              = some ("none of the provided schemas is valid" :: outs.flatten))
        ∧ (2 ≤ (outs.filter (fun m => m.isEmpty)).length →
            validate (.oneOfS subs) x
              = some ("more than one schema is valid" :: outs.flatten))))
    ∧ validate (.oneOfS [stringSchema, numberSchema]) (.bool true)
        = some ["none of the provided schemas is valid",
            "type boolean is not a string", "true is not a valid integer number"] := by
  constructor
  · intro subs x outs h
    cases hn : (outs.filter (fun m => m.isEmpty)).length with
    | zero =>
      have hv : validate (.oneOfS subs) x
          = some ("none of the provided schemas is valid" :: outs.flatten) := by
        simp [validate, h, hn]
      exact ⟨by rw [hv]; simp, fun _ => hv, fun hx => by omega⟩
    | succ m =>
      cases m with
      | zero =>
        have hv : validate (.oneOfS subs) x = some [] := by
          simp [validate, h, hn]
        exact ⟨by rw [hv]; simp, fun hx => by omega, fun hx => by omega⟩
      | succ m2 =>
        have hv : validate (.oneOfS subs) x
            = some ("more than one schema is valid" :: outs.flatten) := by
          simp [validate, h, hn]
        exact ⟨by rw [hv]; simp, fun hx => by omega, fun _ => hv⟩
  · simp [validate, validateList, stringSchema, numberSchema, runRules,
      PrimRule.apply, jsTypeof, jsToString]

/-- Witness for C5: the characterization applied to `oneOf(number)` on
`true`, where zero sub-schemas match. -/
theorem oneOf_exclusive_c5_witness :
    validate (.oneOfS [numberSchema]) (.bool true)
      = some ("none of the provided schemas is valid"
          :: [["true is not a valid integer number"]].flatten) := by
  have hl : validateList [numberSchema] (.bool true)
      = some [["true is not a valid integer number"]] := by
    simp [validateList, numberSchema, validate, runRules, PrimRule.apply, jsToString]
  exact (oneOf_exclusive_c5.1 [numberSchema] (.bool true)
    [["true is not a valid integer number"]] hl).2.1 (by simp)

/-- Claim C7: in `ArraySchema.__$validate` the `allowDuplicates` field check
fires right after the element loop and before the whitelist, blacklist and
rule-chain delegation, whatever rules the chain holds; concretely
`array(number).min(2).unique()` yields `duplicates not allowed` on `[1,1]`
and `shall contain at least 2 items` on `[1]`. -/
theorem array_unique_before_rules_c7 :
    (∀ (s : Schema) (rules : List ArrRule) (wl bl : Option (List JSValue))
      (l : List JSValue),
      validateElems s l = some [] → jsSetSize l ≠ l.length →
      validate (.arrS (some s) none false wl bl rules) (.arr l)
        = some ["duplicates not allowed"])
    ∧ validate (.arrS (some numberSchema) none false none none [.minR 2, .uniqueR])
        (.arr [.num 1, .num 1]) = some ["duplicates not allowed"]
    ∧ validate (.arrS (some numberSchema) none false none none [.minR 2, .uniqueR])
        (.arr [.num 1]) = some ["shall contain at least 2 items"] := by
  refine ⟨?_, ?_, ?_⟩
  · intro s rules wl bl l he hd
    simp [validate, he, arrChecks, hd]
  · have he : validateElems numberSchema [.num 1, .num 1] = some [] := by
      simp [validateElems, numberSchema, validate, runRules, PrimRule.apply]
    have hs : jsSetSize [JSValue.num 1, JSValue.num 1] = 1 := by
      simp [jsSetSize, jsSameValueZero]
    simp [validate, he, arrChecks, hs]
  · have he : validateElems numberSchema [.num 1] = some [] := by
      simp [validateElems, numberSchema, validate, runRules, PrimRule.apply]
    have hs : jsSetSize [JSValue.num 1] = 1 := by
      simp [jsSetSize, jsSameValueZero]
    simp [validate, he, arrChecks, hs, runRules, ArrRule.apply]
    decide

/-- Witness for C7: the general duplicate-precedence statement applied to an
array of two equal booleans with a `max(0)` rule that would also fail. -/
theorem array_unique_before_rules_c7_witness :
    validate (.arrS (some (.prim [.boolType])) none false none none [.maxR 0])
        (.arr [.bool true, .bool true]) = some ["duplicates not allowed"] := by
  refine array_unique_before_rules_c7.1 (.prim [.boolType]) [.maxR 0] none none
    [.bool true, .bool true] ?_ ?_
  · simp [validateElems, validate, runRules, PrimRule.apply]
  · simp [jsSetSize, jsSameValueZero]

/-- Every date chain rule evaluates without throwing on a valid date. -/
theorem dateRule_apply_isSome (r : DateRule) (t : Int) :
    (DateRule.apply r (.date t true)).isSome := by
  cases r <;> simp [DateRule.apply]

/-- The date rule chain evaluates without throwing on a valid date. -/
theorem runRules_date_isSome (rules : List DateRule) (t : Int) :
    (runRules DateRule.apply rules (.date t true)).isSome := by
  induction rules with
  | nil => simp [runRules]
  | cons r rs ih =>
    have h := dateRule_apply_isSome r t
    cases ha : DateRule.apply r (.date t true) with
    | none => rw [ha] at h; simp at h
    | some p =>
      obtain ⟨b, m⟩ := p
      cases b
      · simp [runRules, ha]
      · simp [runRules, ha, ih]

/-- The max-bound check and rule-chain tail of the date validator never
throws. -/
theorem dateMaxAndRules_isSome (maxD : Option Int) (rules : List DateRule) (t : Int) :
    (dateMaxAndRules maxD rules t).isSome := by
  cases maxD with
  | none => simpa [dateMaxAndRules] using runRules_date_isSome rules t
  | some m =>
    by_cases h : m < t
    · simp [dateMaxAndRules, h]
    · simpa [dateMaxAndRules, h] using runRules_date_isSome rules t

/-- Claim C6: an unparsable bound given to the date schema `min` or `max`
modifier throws a typed `ValidationError` (name "ValidationError", HTTP code
400) synchronously at chain-build time, propagated to the caller of the
chain call; evaluation, by contrast, never throws for any schema state and
any input. -/
theorem date_bound_misuse_c6 :
    (∀ (st : DateSchemaState) (d : JSValue), toDateModel d = none →
      (∃ e, DateSchemaState.min st d = .error e
          ∧ e.name = "ValidationError" ∧ e.code = 400)
      ∧ (∃ e, DateSchemaState.max st d = .error e
          ∧ e.name = "ValidationError" ∧ e.code = 400))
    ∧ (∀ (st : DateSchemaState) (x : JSValue),
        (dateValidate st.minDate st.maxDate st.rules x).isSome) := by
  constructor
  · intro st d hd
    exact ⟨⟨mkValidationError "Invalid min date",
        by simp [DateSchemaState.min, hd], rfl, rfl⟩,
      ⟨mkValidationError "Invalid max date",
        by simp [DateSchemaState.max, hd], rfl, rfl⟩⟩
  · intro st x
    cases x with
    | str s =>
      cases hp : parseDate s with
      | none => simp [dateValidate, hp]
      | some t =>
        cases hm : st.minDate with
        | none =>
          simpa [dateValidate, hp, hm] using dateMaxAndRules_isSome st.maxDate st.rules t
        | some m =>
          by_cases h : t < m
          · simp [dateValidate, hp, hm, h]
          · simpa [dateValidate, hp, hm, h] using dateMaxAndRules_isSome st.maxDate st.rules t
    | undefined => simp [dateValidate]
    | null => simp [dateValidate]
    | bool b => simp [dateValidate]
    | num q => simp [dateValidate]
    | nan => simp [dateValidate]
    | arr l => simp [dateValidate]
    | obj fs => simp [dateValidate]
    | date t b => simp [dateValidate]

/-- Witness for C6: the unparsable string bound "soon" passed to `min` on a
fresh date schema throws the 400 `ValidationError`, and evaluation of the
fresh schema state returns normally on `null`. -/
theorem date_bound_misuse_c6_witness :
    (∃ e, DateSchemaState.min dateSchemaNew (.str "soon") = .error e
        ∧ e.name = "ValidationError" ∧ e.code = 400)
    ∧ (dateValidate dateSchemaNew.minDate dateSchemaNew.maxDate
        dateSchemaNew.rules .null).isSome :=
  ⟨(date_bound_misuse_c6.1 dateSchemaNew (.str "soon") (by decide)).1,
   date_bound_misuse_c6.2 dateSchemaNew .null⟩

/-- Claim C8: a `DateSchema`, whatever its bounds and rules, rejects every
`Date`-instance input with exactly `NaN is not a valid date` (only string
inputs are ever parsed into `_input`), and an input can validate to the
empty list only if it is a string that parses to a valid date. -/
theorem date_instance_input_rejected_c8 :
    (∀ (minDate maxDate : Option Int) (rules : List DateRule) (t : Int) (b : Bool),
      validate (.dateS minDate maxDate rules) (.date t b)
        = some ["NaN is not a valid date"])
    ∧ (∀ (minDate maxDate : Option Int) (rules : List DateRule) (x : JSValue),
        validate (.dateS minDate maxDate rules) x = some [] →
        ∃ s t, x = .str s ∧ parseDate s = some t) := by
  constructor
  · intro minDate maxDate rules t b
    simp [validate, dateValidate]
  · intro minDate maxDate rules x h
    simp only [validate] at h
    cases x with
    | str s =>
      cases hp : parseDate s with
      | none => simp [dateValidate, hp] at h
      | some t => exact ⟨s, t, rfl, hp⟩
    | undefined => simp [dateValidate] at h
    | null => simp [dateValidate] at h
    | bool b => simp [dateValidate] at h
    | num q => simp [dateValidate] at h
    | nan => simp [dateValidate] at h
    | arr l => simp [dateValidate] at h
    | obj fs => simp [dateValidate] at h
    | date t b => simp [dateValidate] at h

/-- Witness for C8: the string "2020-01-05" validates to the empty list on a
fresh date schema, hence it parses to a valid date. -/
theorem date_instance_input_rejected_c8_witness :
    ∃ s t, (JSValue.str "2020-01-05") = .str s ∧ parseDate s = some t := by
  refine date_instance_input_rejected_c8.2 none none [.instanceR] (.str "2020-01-05") ?_
  simp [validate]
  decide

/-- Claim C9: the optional and nullable wrappers snapshot the inner
descriptor at construction time — metadata merged into the inner schema
after wrapping leaves the wrapper export unchanged — while validation
delegates to the live aliased inner schema, so a rule appended after
wrapping does change the wrapper results, shown concretely by the last two
conjuncts (valid before the append, rejected after). -/
theorem wrapper_snapshot_live_rules_c9 :
    (∀ (ρ : Type) (inner : CoreSt ρ) (data : Descriptor) (r : ρ)
      (apply : ρ → JSValue → Option (Bool × String)) (x : JSValue),
      wrapperExport (innerMetadata data (mkOptionalWorld inner))
        = wrapperExport (mkOptionalWorld inner)
      ∧ wrapperExport (mkOptionalWorld inner)
          = mergeDesc [("type", .mStr inner.type)]
              (mergeDesc inner.desc [("optional", .mBool true)])
      ∧ wrapperExport (innerMetadata data (mkNullableWorld inner))
          = wrapperExport (mkNullableWorld inner)
      ∧ wrapperExport (mkNullableWorld inner)
          = mergeDesc [("type", .mStr inner.type)]
              (mergeDesc inner.desc [("nullable", .mBool true)])
      ∧ optionalValidate apply (innerAddRule r (mkOptionalWorld inner)) x
          = (match x with
             | .undefined => some []
             | _ => runRules apply (inner.rules ++ [r]) x)
      ∧ nullableValidate apply (innerAddRule r (mkNullableWorld inner)) x
          = (match x with
             | .null => some []
             | _ => runRules apply (inner.rules ++ [r]) x))
    ∧ optionalValidate PrimRule.apply (mkOptionalWorld numberCoreSt)
        (.num (mkRat 5 2)) = some []
    ∧ optionalValidate PrimRule.apply
        (innerAddRule .numInteger (mkOptionalWorld numberCoreSt)) (.num (mkRat 5 2))
      = some ["shall be an integer"] := by
  refine ⟨?_, ?_, ?_⟩
  · intro ρ inner data r apply x
    refine ⟨rfl, rfl, rfl, rfl, ?_, ?_⟩
    · cases x <;> rfl
    · cases x <;> rfl
  · simp [optionalValidate, mkOptionalWorld, numberCoreSt, coreInit, runRules,
      PrimRule.apply]
  · simp [optionalValidate, innerAddRule, mkOptionalWorld, numberCoreSt, coreInit,
      coreAdd, runRules, PrimRule.apply]
    decide

/-- Claim C10: the `loose` accessor returns a fresh instance that shares the
shape reference and has the loose flag set, but whose descriptor is
re-initialized to the base type only, so previously merged metadata is
absent from its exported descriptor; the receiver itself is unchanged (still
strict).  The last two conjuncts show it concretely for a merged `name`. -/
theorem loose_fresh_descriptor_c10 :
    (∀ (σ : Type) (s : ObjectSt σ) (exportShape : σ → MetaValue) (k : String),
      (objectLoose s).1.shape = s.shape
      ∧ (objectLoose s).1.loose = true
      ∧ (objectLoose s).1.desc = [("type", .mStr "object")]
      ∧ (objectLoose s).2 = s
      ∧ (k ≠ "type" → k ≠ "shape" →
          lookupDesc k (objectExport exportShape (objectLoose s).1) = none))
    ∧ lookupDesc "name"
        (objectExport (fun _ => .mDesc [])
          (objectLoose (objectMetadata [("name", .mStr "User")] (objectNew ()))).1)
        = none
    ∧ lookupDesc "name"
        (objectMetadata [("name", .mStr "User")] (objectNew ())).desc
        = some (.mStr "User") := by
  refine ⟨?_, ?_, ?_⟩
  · intro σ s exportShape k
    refine ⟨rfl, rfl, rfl, rfl, ?_⟩
    intro h1 h2
    have hb1 : (("type" : String) == k) = false := beq_eq_false_iff_ne.mpr (Ne.symm h1)
    have hb2 : (("shape" : String) == k) = false := beq_eq_false_iff_ne.mpr (Ne.symm h2)
    simp [objectExport, objectLoose, objectNew, mergeDesc, setKey, lookupDesc,
      List.find?, hb1, hb2]
  · simp [objectExport, objectLoose, objectMetadata, objectNew, mergeDesc, setKey,
      lookupDesc, List.find?]
  · simp [objectMetadata, objectNew, mergeDesc, setKey, lookupDesc, List.find?]

/-- Witness for C10: a key never merged anywhere (`description`) is absent
from the loose export over a trivial shape. -/
theorem loose_fresh_descriptor_c10_witness :
    lookupDesc "description"
      (objectExport (fun _ => .mDesc []) (objectLoose (objectNew (0 : Nat))).1)
      = none :=
  (loose_fresh_descriptor_c10.1 Nat (objectNew 0) (fun _ => .mDesc [])
    "description").2.2.2.2 (by decide) (by decide)
